import Mathlib

/-!
Verification of the scene-text-recognition utilities
(src/utils/gdrive_downloader.py and src/utils/memory_tracker.py).

Shallow embedding conventions:
* Python strings are Lean `String`; Python `s.split(sep)` and `sub in s` are
  re-implemented below (`pySplit`, `pyIn`) with Python semantics.
* Filesystem and network effects are oracles collected in an `Env` record:
  the gdown transfer, the HEAD probe, `mimetypes.guess_type`, opening a zip,
  extracting each entry and unlinking files may each succeed or raise.
  A file on disk is modelled by `Option Nat` (its size when present).
* A Python exception is `Except.error msg`; a `try/except` block is a match
  on the `Except` value of the embedded body.  Public operations whose whole
  body is wrapped in `try/except` therefore always return `Except.ok`, while
  `download_and_extract`, which has no handler in the source, can return
  `Except.error`.
* `mkdir(parents=True, exist_ok=True)` calls are modelled as succeeding.
-/

namespace GDD

/-- Python `sub in s` on character lists: true iff `sep` occurs in `s`
(the empty pattern always occurs). -/
def listContainsSub (sep : List Char) : List Char → Bool
  | [] => sep.isEmpty
  | c :: cs => sep.isPrefixOf (c :: cs) || listContainsSub sep cs

/-- Python `sub in s` for strings. -/
def pyIn (sub s : String) : Bool := listContainsSub sub.data s.data

/-- Fuel-driven core of Python `str.split(sep)` on character lists.
Splits at each leftmost, non-overlapping occurrence of `sep`.
Structurally recursive on the fuel so that the kernel can evaluate it;
the fuel is never exhausted when it starts at `s.length`. -/
def pySplitFuel (sep : List Char) : Nat → List Char → List (List Char)
  | _, [] => [[]]
  | 0, s => [s]
  | fuel + 1, c :: cs =>
    if sep.isPrefixOf (c :: cs) && !sep.isEmpty then
      [] :: pySplitFuel sep fuel (List.drop (sep.length - 1) cs)
    else
      match pySplitFuel sep fuel cs with
      | [] => [[c]]
      | hd :: tl => (c :: hd) :: tl

/-- Python `str.split(sep)` on character lists. -/
def pySplitCore (sep s : List Char) : List (List Char) := pySplitFuel sep s.length s

/-- Python `s.split(sep)` for strings (list of fragments between occurrences). -/
def pySplit (s sep : String) : List String := (pySplitCore sep.data s.data).map List.asString

/-- The `MIME_TYPES` class attribute of `GDriveDownloader`
(gdrive_downloader.py lines 21-27): five archive families, each mapped to
its list of canonical MIME strings. -/
def MIME_TYPES : List (String × List String) :=
  [("zip", ["application/zip", "application/x-zip-compressed"]),
   ("tar", ["application/x-tar"]),
   ("gzip", ["application/gzip", "application/x-gzip"]),
   ("7z", ["application/x-7z-compressed"]),
   ("rar", ["application/x-rar-compressed"])]

/-- `GDriveDownloader._is_compressed_file` (lines 77-93):
`if not mime_type: return False` (None and the empty string are falsy), then
`any(mime_type in mime_types for mime_types in self.MIME_TYPES.values())`. -/
def is_compressed_file (mime_type : Option String) : Bool :=
  match mime_type with
  | none => false
  | some m =>
    if m = "" then false
    else (MIME_TYPES.map Prod.snd).any (fun mime_types => mime_types.contains m)

/-- One zip archive entry; only its `file_size` attribute is used by the code. -/
structure ZipEntry where
  file_size : Nat
deriving DecidableEq

/-- Oracle for `zipfile.ZipFile(archive_path)`: it opens and yields the entry
list, raises `zipfile.BadZipFile`, or raises some other exception. -/
inductive ZipOpen where
  | entries : List ZipEntry → ZipOpen
  | badZip : ZipOpen
  | openErr : String → ZipOpen
deriving DecidableEq

/-- Oracle for one `gdown.download(url, path)` call: `ret` is its returned
truthiness or the exception it raises; `fileAfter` is the state of the
output file (size, when it exists) once the call finishes. -/
structure TransferOutcome where
  ret : Except String Bool
  fileAfter : Option Nat

/-- Environment of one `GDriveDownloader` public-operation call: the
behaviour of every external capability the source invokes. -/
structure Env where
  /-- `mimetypes.guess_type(p)[0]`: name-only MIME inference. -/
  guess : String → Option String
  /-- content-type from `requests.head`; `none` covers both a missing header
  and a probe failure (the source swallows probe exceptions). -/
  headMime : String → Option String
  /-- behaviour of `gdown.download` on the given direct URL. -/
  transfer : String → TransferOutcome
  /-- behaviour of `zipfile.ZipFile(archive_path)`. -/
  zipOpen : ZipOpen
  /-- exception (if any) raised by `zf.extract` on the i-th entry. -/
  entryRaise : Nat → Option String
  /-- exception (if any) raised by `archive_path.unlink()` inside `extract`. -/
  unlinkArchive : Option String
  /-- exception (if any) raised by `temp_zip.unlink()` in the failure-path
  cleanup of `download_and_extract`. -/
  cleanupUnlink : Option String
  /-- `int(time.time())` when `download_and_extract` builds its temp name. -/
  time : Nat

/-- `GDriveDownloader._get_mime_type` (lines 54-75): try name-based guessing
first; only when it yields nothing, fall back to the HEAD probe, whose own
failure is swallowed into `none`. -/
def get_mime_type (env : Env) (url : String) : Option String :=
  match env.guess url with
  | some mime_type => some mime_type
  | none => env.headMime url

/-- URL-resolution logic inlined in `GDriveDownloader.download`
(lines 123-134).  `none` models the `"Invalid Google Drive URL format"`
early return; `some u` is the `download_url` handed to gdown. -/
def resolveDownloadUrl (gdrive_url : String) : Option String :=
  if pyIn "drive.google.com" gdrive_url then
    if pyIn "file/d/" gdrive_url then
      some ("https://drive.google.com/uc?id=" ++
        (pySplit ((pySplit gdrive_url "file/d/").getD 1 "") "/").getD 0 "")
    else if pyIn "id=" gdrive_url then
      some ("https://drive.google.com/uc?id=" ++
        (pySplit ((pySplit gdrive_url "id=").getD 1 "") "&").getD 0 "")
    else none
  else some gdrive_url

/-- The `(success, message, mime_type)` tuple returned by `download`. -/
structure DownloadResult where
  success : Bool
  message : String
  mime_type : Option String
deriving DecidableEq

/-- Observable outcome of one `download` call: its returned tuple, the state
of the file at `output_path` afterwards, and how many times the transfer
capability (gdown) was invoked. -/
structure DownloadOut where
  result : DownloadResult
  fileAfter : Option Nat
  transferCalls : Nat
deriving DecidableEq

/-- Body of `GDriveDownloader.download` (lines 114-152), i.e. the code inside
its `try:`.  `pre` is the file at `output_path` before the call.  An
uncaught exception is `.error (msg, file state, transfer calls)`. -/
def downloadBody (env : Env) (gdrive_url output_path : String)
    (force_download validate_compression : Bool) (pre : Option Nat) :
    Except (String × Option Nat × Nat) DownloadOut :=
  if !force_download && pre.isSome then
    .ok ⟨⟨true, "File already exists", env.guess output_path⟩, pre, 0⟩
  else
    match resolveDownloadUrl gdrive_url with
    | none => .ok ⟨⟨false, "Invalid Google Drive URL format", none⟩, pre, 0⟩
    | some download_url =>
      match (env.transfer download_url).ret with
      | .error e => .error (e, (env.transfer download_url).fileAfter, 1)
      | .ok success =>
        if !success then
          .ok ⟨⟨false, "Download failed", none⟩, (env.transfer download_url).fileAfter, 1⟩
        else
          match (env.transfer download_url).fileAfter with
          | none => .ok ⟨⟨false, "Downloaded file is empty or missing", none⟩, none, 1⟩
          | some sz =>
            if sz == 0 then
              .ok ⟨⟨false, "Downloaded file is empty or missing", none⟩, some sz, 1⟩
            else
              let mime_type := get_mime_type env output_path
              if validate_compression && !is_compressed_file mime_type then
                .ok ⟨⟨false, "Downloaded file is not a compressed archive", mime_type⟩, some sz, 1⟩
              else
                .ok ⟨⟨true, "Download successful", mime_type⟩, some sz, 1⟩

/-- `download` with its `except Exception` handler (lines 154-156) applied:
any exception becomes the structured `(False, "Download failed: ...", None)`. -/
def downloadRun (env : Env) (gdrive_url output_path : String)
    (force_download validate_compression : Bool) (pre : Option Nat) : DownloadOut :=
  match downloadBody env gdrive_url output_path force_download validate_compression pre with
  | .ok o => o
  | .error (e, fileAfter, calls) =>
    ⟨⟨false, "Download failed: " ++ e, none⟩, fileAfter, calls⟩

/-- Public `GDriveDownloader.download`.  Because the whole body is inside
`try/except Exception`, it never propagates an exception: it is always
`Except.ok`. -/
def download (env : Env) (gdrive_url output_path : String)
    (force_download validate_compression : Bool) (pre : Option Nat) :
    Except String DownloadOut :=
  .ok (downloadRun env gdrive_url output_path force_download validate_compression pre)

/-- The `(success, message)` pair returned by `extract`, together with the
state of the archive file and whether the destination directory is
non-empty after the call. -/
structure ExtractOut where
  success : Bool
  message : String
  archiveAfter : Option Nat
  destNonEmptyAfter : Bool
deriving DecidableEq

/-- Exceptions distinguished by `extract`'s handlers:
`zipfile.BadZipFile` versus any other exception. -/
inductive ExtractErr where
  | badZipFile : ExtractErr
  | exc : String → ExtractErr
deriving DecidableEq

/-- The `for file in zf.filelist: zf.extract(file, extract_path)` loop
(lines 196-199).  `i` is the index of the next entry (= number already
extracted); the result is the number of entries extracted, or the raised
exception together with that number. -/
def extractLoop (entryRaise : Nat → Option String) :
    List ZipEntry → Nat → Except (String × Nat) Nat
  | [], i => .ok i
  | _ :: files, i =>
    match entryRaise i with
    | some e => .error (e, i)
    | none => extractLoop entryRaise files (i + 1)

/-- Body of `GDriveDownloader.extract` (lines 177-210), i.e. the code inside
its `try:`.  `archivePre` is the archive file before the call; `destPre`
says whether the destination directory already has an entry.  Each entry
extracted without an exception contributes at least one object under the
destination, so the directory is non-empty after the loop iff it was
non-empty before or at least one entry was extracted. -/
def extractBody (env : Env) (archive_path : String) (archivePre : Option Nat)
    (destPre : Bool) (remove_archive : Bool) :
    Except (ExtractErr × Option Nat × Bool) ExtractOut :=
  if archivePre.isNone then
    .ok ⟨false, "Archive file not found", archivePre, destPre⟩
  else
    let mime_type := env.guess archive_path
    if !is_compressed_file mime_type then
      .ok ⟨false, "File is not a compressed archive", archivePre, destPre⟩
    else
      match env.zipOpen with
      | .badZip => .error (.badZipFile, archivePre, destPre)
      | .openErr e => .error (.exc e, archivePre, destPre)
      | .entries filelist =>
        match extractLoop env.entryRaise filelist 0 with
        | .error (e, extracted) => .error (.exc e, archivePre, destPre || extracted != 0)
        | .ok extracted =>
          let destAfter := destPre || extracted != 0
          if !destAfter then
            .ok ⟨false, "No files found after extraction", archivePre, destAfter⟩
          else if remove_archive then
            match env.unlinkArchive with
            | some e => .error (.exc e, archivePre, destAfter)
            | none => .ok ⟨true, "Extraction successful", none, destAfter⟩
          else
            .ok ⟨true, "Extraction successful", archivePre, destAfter⟩

/-- `extract` with its two handlers (lines 212-216) applied:
`BadZipFile` becomes `"Invalid or corrupted zip file"`, any other exception
becomes `"Extraction failed: ..."`. -/
def extractRun (env : Env) (archive_path : String) (archivePre : Option Nat)
    (destPre : Bool) (remove_archive : Bool) : ExtractOut :=
  match extractBody env archive_path archivePre destPre remove_archive with
  | .ok o => o
  | .error (.badZipFile, a, d) => ⟨false, "Invalid or corrupted zip file", a, d⟩
  | .error (.exc e, a, d) => ⟨false, "Extraction failed: " ++ e, a, d⟩

/-- Public `GDriveDownloader.extract`: fully wrapped in `try/except`, hence
always `Except.ok`. -/
def extract (env : Env) (archive_path : String) (archivePre : Option Nat)
    (destPre : Bool) (remove_archive : Bool) : Except String ExtractOut :=
  .ok (extractRun env archive_path archivePre destPre remove_archive)

/-- The `(success, message)` pair returned by `download_and_extract`,
the state of the temporary archive in the cache directory afterwards, and
whether the extraction destination is non-empty afterwards. -/
structure DAEOut where
  success : Bool
  message : String
  tempAfter : Option Nat
  destNonEmptyAfter : Bool
deriving DecidableEq

/-- `GDriveDownloader.download_and_extract` (lines 218-267).  Note: unlike
`download` and `extract`, this method has NO `try/except` of its own, so the
`temp_zip.unlink()` on its extraction-failure cleanup path (line 264) can
raise an exception that escapes the public boundary (`.error`).
`tempPre` is the file already at the temp path (normally `none`). -/
def download_and_extract (env : Env) (cache_dir gdrive_url : String)
    (keep_zip force_download : Bool) (tempPre : Option Nat) (destPre : Bool) :
    Except String DAEOut :=
  let temp_zip := cache_dir ++ "/temp_" ++ toString env.time ++ ".zip"
  match download env gdrive_url temp_zip force_download true tempPre with
  | .error e => .error e
  | .ok d =>
    if !d.result.success then
      .ok ⟨false, "Download phase failed: " ++ d.result.message, d.fileAfter, destPre⟩
    else
      match extract env temp_zip d.fileAfter destPre (!keep_zip) with
      | .error e => .error e
      | .ok ex =>
        if !ex.success then
          if ex.archiveAfter.isSome then
            match env.cleanupUnlink with
            | some e => .error e
            | none => .ok ⟨false, "Extraction phase failed: " ++ ex.message, none, ex.destNonEmptyAfter⟩
          else
            .ok ⟨false, "Extraction phase failed: " ++ ex.message, none, ex.destNonEmptyAfter⟩
        else
          .ok ⟨true, "Download and extraction completed successfully", ex.archiveAfter, ex.destNonEmptyAfter⟩

/-- One file directly under the cache root: its name and mtime. -/
structure CacheFile where
  name : String
  mtime : Int
deriving DecidableEq

/-- Environment of one `cleanup_cache` call. -/
structure CleanEnv where
  /-- `time.time()` at the start of the sweep. -/
  now : Int
  /-- exception (if any) raised by `cache_file.unlink()` for a given name. -/
  unlinkFail : String → Option String

/-- The sweep loop of `cleanup_cache` (lines 273-276).  `glob("*.*")`
enumerates only names containing a dot (fnmatch translates `*.*` to a
pattern requiring a literal dot), modelled by skipping the others.  A file
is deleted when `current_time - mtime > max_age_days * 86400` (strict).
An unlink exception aborts the loop with the remaining files intact. -/
def cleanupLoop (env : CleanEnv) (max_age_days : Int) :
    List CacheFile → Except (String × List CacheFile) (List CacheFile)
  | [] => .ok []
  | f :: fs =>
    if f.name.data.contains '.' && decide (max_age_days * 86400 < env.now - f.mtime) then
      match env.unlinkFail f.name with
      | some e => .error (e, f :: fs)
      | none => cleanupLoop env max_age_days fs
    else
      match cleanupLoop env max_age_days fs with
      | .ok l => .ok (f :: l)
      | .error (e, l) => .error (e, f :: l)

/-- `cleanup_cache` with its `except Exception` handler (lines 277-278)
applied: the surviving cache files after the (possibly aborted) sweep. -/
def cleanupRun (env : CleanEnv) (max_age_days : Int) (files : List CacheFile) :
    List CacheFile :=
  match cleanupLoop env max_age_days files with
  | .ok l => l
  | .error (_, l) => l

/-- Public `GDriveDownloader.cleanup_cache` (lines 269-278): fully wrapped in
`try/except`, hence always `Except.ok`; it returns nothing in Python, so the
observable outcome is the surviving file list. -/
def cleanup_cache (env : CleanEnv) (max_age_days : Int) (files : List CacheFile) :
    Except String (List CacheFile) :=
  .ok (cleanupRun env max_age_days files)

/-- Environment of one `safe_to_device` call (memory_tracker.py lines 35-44):
the behaviour of `tensor.to(device, non_blocking=b)`, indexed by the
`non_blocking` flag; `.error` is a raised `RuntimeError`. -/
structure DevEnv (α : Type) where
  attempt : Bool → Except String α

/-- Observable outcome of `safe_to_device`: the returned tensor or raised
error, the number of transfer attempts, and whether the memory-reclaim step
(`MemoryTracker.clear_memory`) ran. -/
structure MoveOut (α : Type) where
  result : Except String α
  attempts : Nat
  memoryCleared : Bool

/-- `safe_to_device` (memory_tracker.py lines 35-44): non-blocking attempt;
on `RuntimeError`, reclaim memory (which swallows its own errors) and retry
once, blocking; if that also fails, raise a composite `RuntimeError` whose
message embeds the FIRST failure message. -/
def safe_to_device {α : Type} (env : DevEnv α) : MoveOut α :=
  match env.attempt true with
  | .ok t => ⟨.ok t, 1, false⟩
  | .error e =>
    match env.attempt false with
    | .ok t => ⟨.ok t, 2, true⟩
    | .error _ =>
      ⟨.error ("Failed to move tensor to device even after memory cleanup: " ++ e), 2, true⟩

/-- Environment in which the transfer reports success but leaves a zero-byte
file behind (an explicitly anticipated situation: line 144 checks for it). -/
def envEmptyFile : Env :=
  ⟨fun _ => some "application/zip", fun _ => none, fun _ => ⟨.ok true, some 0⟩,
   .entries [], fun _ => none, none, none, 0⟩

/-- Environment in which download and extraction both fully succeed. -/
def envHappy : Env :=
  ⟨fun _ => some "application/zip", fun _ => none, fun _ => ⟨.ok true, some 4⟩,
   .entries [⟨3⟩], fun _ => none, none, none, 0⟩

/-- Environment in which the downloaded file is a corrupt zip and the
failure-path `temp_zip.unlink()` of `download_and_extract` raises. -/
def envBadZip : Env :=
  ⟨fun _ => some "application/zip", fun _ => none, fun _ => ⟨.ok true, some 4⟩,
   .badZip, fun _ => none, none, some "Permission denied", 0⟩

/-- Environment in which extraction of every entry succeeds but the
`archive_path.unlink()` performed for `remove_archive=True` raises. -/
def envUnlinkFail : Env :=
  ⟨fun _ => some "application/zip", fun _ => none, fun _ => ⟨.ok true, some 4⟩,
   .entries [⟨3⟩], fun _ => none, some "Permission denied", none, 0⟩

/-- Environment in which the archive opens fine but contains zero entries. -/
def envZeroEntries : Env :=
  ⟨fun _ => some "application/zip", fun _ => none, fun _ => ⟨.ok true, some 4⟩,
   .entries [], fun _ => none, none, none, 0⟩

/-- Sweep environment: clock at 1000, all unlinks succeed. -/
def sweepEnv : CleanEnv := ⟨1000, fun _ => none⟩

/-- Device-transfer environment in which both attempts raise. -/
def devOOM : DevEnv Nat :=
  ⟨fun non_blocking => if non_blocking then .error "CUDA out of memory" else .error "CUDA error"⟩

/-! ### Helper lemmas about the Python string operations -/

lemma asString_data (s : String) : s.data.asString = s := String.asString_toList s

lemma isPrefixOf_append_self (l t : List Char) : l.isPrefixOf (l ++ t) = true := by
  rw [List.isPrefixOf_iff_prefix]
  exact List.prefix_append l t

lemma listContainsSub_append (sep a b : List Char) :
    listContainsSub sep (a ++ (sep ++ b)) = true := by
  induction a with
  | nil =>
    rw [List.nil_append]
    cases hsep : sep with
    | nil =>
      cases b with
      | nil => rfl
      | cons c cs => simp [listContainsSub]
    | cons d sep' =>
      rw [List.cons_append]
      simp [listContainsSub, ← List.cons_append, ← hsep, isPrefixOf_append_self]
  | cons x a' ih =>
    rw [List.cons_append]
    simp [listContainsSub, ih]

lemma pySplitFuel_congr (sep : List Char) :
    ∀ (f1 : Nat) (s : List Char) (f2 : Nat), s.length ≤ f1 → s.length ≤ f2 →
      pySplitFuel sep f1 s = pySplitFuel sep f2 s := by
  intro f1
  induction f1 with
  | zero =>
    intro s f2 h1 _
    have hs : s = [] := List.eq_nil_of_length_eq_zero (Nat.le_zero.mp h1)
    subst hs
    cases f2 <;> rfl
  | succ f ih =>
    intro s f2 h1 h2
    cases s with
    | nil => cases f2 <;> rfl
    | cons c cs =>
      cases f2 with
      | zero => simp at h2
      | succ f2' =>
        have hcs1 : cs.length ≤ f := by simp [List.length_cons] at h1; omega
        have hcs2 : cs.length ≤ f2' := by simp [List.length_cons] at h2; omega
        simp only [pySplitFuel]
        by_cases hc : (sep.isPrefixOf (c :: cs) && !sep.isEmpty) = true
        · rw [if_pos hc, if_pos hc]
          have hd1 : (List.drop (sep.length - 1) cs).length ≤ f := by
            rw [List.length_drop]; omega
          have hd2 : (List.drop (sep.length - 1) cs).length ≤ f2' := by
            rw [List.length_drop]; omega
          rw [ih _ f2' hd1 hd2]
        · rw [if_neg hc, if_neg hc, ih cs f2' hcs1 hcs2]

lemma pySplitFuel_no_occ (sep : List Char) :
    ∀ (f : Nat) (s : List Char), s.length ≤ f → listContainsSub sep s = false →
      pySplitFuel sep f s = [s] := by
  intro f
  induction f with
  | zero =>
    intro s h1 _
    have hs : s = [] := List.eq_nil_of_length_eq_zero (Nat.le_zero.mp h1)
    subst hs; rfl
  | succ f ih =>
    intro s h1 hocc
    cases s with
    | nil => rfl
    | cons c cs =>
      simp only [listContainsSub, Bool.or_eq_false_iff] at hocc
      obtain ⟨hp, hrest⟩ := hocc
      have hcs : cs.length ≤ f := by simp [List.length_cons] at h1; omega
      simp only [pySplitFuel]
      have hcond : ¬ ((sep.isPrefixOf (c :: cs) && !sep.isEmpty) = true) := by simp [hp]
      rw [if_neg hcond, ih cs hcs hrest]

lemma pySplitCore_no_occ (sep s : List Char) (h : listContainsSub sep s = false) :
    pySplitCore sep s = [s] :=
  pySplitFuel_no_occ sep s.length s (Nat.le_refl _) h

lemma pySplitFuel_first (sep rest : List Char) (hsep : sep ≠ []) :
    ∀ (pre : List Char) (f : Nat), (pre ++ (sep ++ rest)).length ≤ f →
    (∀ i, i < pre.length → sep.isPrefixOf ((pre ++ (sep ++ rest)).drop i) = false) →
    pySplitFuel sep f (pre ++ (sep ++ rest)) = pre :: pySplitFuel sep rest.length rest := by
  intro pre
  induction pre with
  | nil =>
    intro f hf _
    rw [List.nil_append] at hf ⊢
    cases sep with
    | nil => exact absurd rfl hsep
    | cons d sep' =>
      cases f with
      | zero => simp [List.length_append] at hf
      | succ f' =>
        rw [List.cons_append]
        simp only [pySplitFuel]
        have hpre : (d :: sep').isPrefixOf (d :: (sep' ++ rest)) = true := by
          rw [← List.cons_append]; exact isPrefixOf_append_self _ _
        have hcond : ((d :: sep').isPrefixOf (d :: (sep' ++ rest)) && !(d :: sep').isEmpty) = true := by
          simp [hpre]
        rw [if_pos hcond]
        have hdrop : List.drop ((d :: sep').length - 1) (sep' ++ rest) = rest := by
          simp only [List.length_cons, Nat.add_sub_cancel]
          exact List.drop_left sep' rest
        rw [hdrop]
        have hr : rest.length ≤ f' := by
          rw [List.cons_append, List.length_cons, List.length_append] at hf; omega
        rw [pySplitFuel_congr (d :: sep') f' rest rest.length hr (Nat.le_refl _)]
  | cons c pre' ih =>
    intro f hf h
    cases f with
    | zero => simp [List.length_append] at hf
    | succ f' =>
      rw [List.cons_append] at hf ⊢
      have h0 : sep.isPrefixOf (c :: (pre' ++ (sep ++ rest))) = false := by
        have := h 0 (by simp)
        rwa [List.drop_zero, List.cons_append] at this
      simp only [pySplitFuel]
      have hcond : ¬ ((sep.isPrefixOf (c :: (pre' ++ (sep ++ rest))) && !sep.isEmpty) = true) := by
        simp [h0]
      rw [if_neg hcond]
      have hlen : (pre' ++ (sep ++ rest)).length ≤ f' := by
        rw [List.length_cons] at hf; omega
      have hshift : ∀ i, i < pre'.length →
          sep.isPrefixOf ((pre' ++ (sep ++ rest)).drop i) = false := by
        intro i hi
        have := h (i + 1) (by simp [List.length_cons]; omega)
        rwa [List.cons_append, List.drop_succ_cons] at this
      rw [ih f' hlen hshift]

lemma pySplitCore_first (sep pre rest : List Char) (hsep : sep ≠ [])
    (h : ∀ i, i < pre.length → sep.isPrefixOf ((pre ++ (sep ++ rest)).drop i) = false) :
    pySplitCore sep (pre ++ (sep ++ rest)) = pre :: pySplitCore sep rest :=
  pySplitFuel_first sep rest hsep pre _ (Nat.le_refl _) h

lemma pySplitFuel_single (c : Char) (b : List Char) :
    ∀ (a : List Char) (f : Nat), (a ++ c :: b).length ≤ f → a.contains c = false →
    pySplitFuel [c] f (a ++ c :: b) = a :: pySplitFuel [c] b.length b := by
  intro a
  induction a with
  | nil =>
    intro f hf _
    rw [List.nil_append] at hf ⊢
    cases f with
    | zero => simp at hf
    | succ f' =>
      simp only [pySplitFuel]
      have hpre : ([c]).isPrefixOf (c :: b) = true := by
        have hc : ([c] : List Char) ++ b = c :: b := rfl
        rw [← hc]; exact isPrefixOf_append_self _ _
      have hcond : (([c]).isPrefixOf (c :: b) && !([c] : List Char).isEmpty) = true := by
        simp [hpre]
      rw [if_pos hcond]
      simp only [List.length_cons, List.length_nil, Nat.add_sub_cancel, List.drop_zero]
      have hb : b.length ≤ f' := by simp [List.length_cons] at hf; omega
      rw [pySplitFuel_congr [c] f' b b.length hb (Nat.le_refl _)]
  | cons x a' ih =>
    intro f hf hcon
    cases f with
    | zero => simp at hf
    | succ f' =>
      rw [List.cons_append] at hf ⊢
      have hxc : (c == x) = false := by
        rw [List.contains_cons] at hcon
        exact (Bool.or_eq_false_iff.mp hcon).1
      have h0 : ([c]).isPrefixOf (x :: (a' ++ c :: b)) = false := by
        simp [List.isPrefixOf, hxc]
      simp only [pySplitFuel]
      have hcond : ¬ ((([c]).isPrefixOf (x :: (a' ++ c :: b)) && !([c] : List Char).isEmpty) = true) := by
        simp [h0]
      rw [if_neg hcond]
      have hlen : (a' ++ c :: b).length ≤ f' := by
        rw [List.length_cons] at hf; omega
      rw [ih f' hlen (by rw [List.contains_cons] at hcon; exact (Bool.or_eq_false_iff.mp hcon).2)]

lemma pySplitCore_single (c : Char) (a b : List Char) (h : a.contains c = false) :
    pySplitCore [c] (a ++ c :: b) = a :: pySplitCore [c] b :=
  pySplitFuel_single c b a _ (Nat.le_refl _) h

/-! ### Helper lemmas about the extraction loop -/

lemma extractLoop_ok (r : Nat → Option String) :
    ∀ (l : List ZipEntry) (i n : Nat), extractLoop r l i = .ok n → n = i + l.length := by
  intro l
  induction l with
  | nil =>
    intro i n h
    simp only [extractLoop, Except.ok.injEq] at h
    simp only [List.length_nil]
    omega
  | cons z l' ih =>
    intro i n h
    simp only [extractLoop] at h
    cases hr : r i with
    | some e => rw [hr] at h; simp at h
    | none =>
      rw [hr] at h
      have := ih (i + 1) n h
      simp only [List.length_cons]; omega

lemma extractLoop_none (r : Nat → Option String) (h : ∀ i, r i = none) :
    ∀ (l : List ZipEntry) (i : Nat), extractLoop r l i = .ok (i + l.length) := by
  intro l
  induction l with
  | nil => intro i; simp [extractLoop]
  | cons z l' ih =>
    intro i
    simp only [extractLoop, h i]
    rw [ih (i + 1)]
    have harith : i + 1 + l'.length = i + (z :: l').length := by
      simp only [List.length_cons]; omega
    rw [harith]

lemma extraction_failed_ne (e : String) :
    ("Extraction failed: " ++ e) ≠ "No files found after extraction" := by
  intro h
  have h2 : ("Extraction failed: " ++ e).data = ("No files found after extraction").data := by
    rw [h]
  rw [String.data_append] at h2
  have hL : (("Extraction failed: ").data ++ e.data).head? = some 'E' := rfl
  rw [h2] at hL
  exact absurd hL (by decide)

/-- When `extract` succeeds, the archive file is gone exactly when
`remove_archive` was set (and still present, hence `isSome`, otherwise). -/
lemma extractRun_success_archive (env : Env) (p : String) (pre : Option Nat) (dp rm : Bool)
    (h : (extractRun env p pre dp rm).success = true) :
    (extractRun env p pre dp rm).archiveAfter.isSome = !rm := by
  cases pre with
  | none => simp [extractRun, extractBody] at h
  | some sz =>
    cases hm : is_compressed_file (env.guess p) with
    | false => simp [extractRun, extractBody, hm] at h
    | true =>
      cases hz : env.zipOpen with
      | badZip => simp [extractRun, extractBody, hm, hz] at h
      | openErr e => simp [extractRun, extractBody, hm, hz] at h
      | entries filelist =>
        cases hloop : extractLoop env.entryRaise filelist 0 with
        | error pr =>
          obtain ⟨e, k⟩ := pr
          simp [extractRun, extractBody, hm, hz, hloop] at h
        | ok n =>
          by_cases hd : (dp || n != 0) = true
          · cases rm with
            | false => simp [extractRun, extractBody, hm, hz, hloop, hd]
            | true =>
              cases hu : env.unlinkArchive with
              | some e => simp [extractRun, extractBody, hm, hz, hloop, hd, hu] at h
              | none => simp [extractRun, extractBody, hm, hz, hloop, hd, hu]
          · have hd' : (dp || n != 0) = false := by
              revert hd; cases (dp || n != 0) <;> simp
            simp [extractRun, extractBody, hm, hz, hloop, hd'] at h

/-! ### Claim theorems -/

/-- Claim C6: for an existing non-empty destination file and
`force_download = false`, `download` short-circuits to success with the
message "File already exists", the MIME type is classified by file name only
(`env.guess`, never the network probe `env.headMime`), the transfer
capability is not invoked (0 calls), and the existing file is untouched. -/
theorem c6_existing_file_short_circuit (env : Env) (gdrive_url output_path : String)
    (validate_compression : Bool) (sz : Nat) :
    download env gdrive_url output_path false validate_compression (some (sz + 1)) =
      .ok ⟨⟨true, "File already exists", env.guess output_path⟩, some (sz + 1), 0⟩ := rfl

/-- Claim C9: a destination file that exists with size zero is treated the
same way when `force_download = false`: `download` still short-circuits to
success with "File already exists", because the existence check (line 119)
precedes the empty-file check (line 144); the empty-or-missing failure can
only apply to freshly transferred files. -/
theorem c9_zero_byte_existing_file (env : Env) (gdrive_url output_path : String)
    (validate_compression : Bool) :
    download env gdrive_url output_path false validate_compression (some 0) =
      .ok ⟨⟨true, "File already exists", env.guess output_path⟩, some 0, 0⟩ := rfl

/-- Claim C7: `_is_compressed_file` returns true iff its argument is one of
the seven canonical MIME strings of the five configured archive families
(zip, tar, gzip, 7z, rar); it returns false for `None`, for the empty
string, and for unrecognized strings such as "text/plain". -/
theorem c7_is_archive_iff :
    (∀ (m : Option String), is_compressed_file m = true ↔
        m ∈ ([some "application/zip", some "application/x-zip-compressed",
              some "application/x-tar", some "application/gzip", some "application/x-gzip",
              some "application/x-7z-compressed", some "application/x-rar-compressed"] :
          List (Option String))) ∧
    is_compressed_file none = false ∧
    is_compressed_file (some "") = false ∧
    is_compressed_file (some "text/plain") = false := by
  refine ⟨?_, rfl, by decide, by decide⟩
  intro m
  cases m with
  | none => simp [is_compressed_file]
  | some s =>
    by_cases hs : s = ""
    · subst hs; simp [is_compressed_file]
    · simp [is_compressed_file, MIME_TYPES, hs, List.contains_cons]
      tauto

/-- Claim C8: `safe_to_device` first attempts a non-blocking transfer; on a
transfer error it performs the memory-reclaim step and retries exactly once,
blocking; if the second attempt also fails it raises a composite error whose
message embeds the original (first) failure message; at most two attempts
(one retry) ever occur. -/
theorem c8_safe_to_device (α : Type) (env : DevEnv α) :
    (safe_to_device env).attempts ≤ 2 ∧
    (∀ t, env.attempt true = .ok t → safe_to_device env = ⟨.ok t, 1, false⟩) ∧
    (∀ e t, env.attempt true = .error e → env.attempt false = .ok t →
      safe_to_device env = ⟨.ok t, 2, true⟩) ∧
    (∀ e e2, env.attempt true = .error e → env.attempt false = .error e2 →
      safe_to_device env =
        ⟨.error ("Failed to move tensor to device even after memory cleanup: " ++ e), 2, true⟩) := by
  refine ⟨?_, ?_, ?_, ?_⟩
  · cases h1 : env.attempt true with
    | ok t => simp [safe_to_device, h1]
    | error e => cases h2 : env.attempt false <;> simp [safe_to_device, h1, h2]
  · intro t h1; simp [safe_to_device, h1]
  · intro e t h1 h2; simp [safe_to_device, h1, h2]
  · intro e e2 h1 h2; simp [safe_to_device, h1, h2]

/-- Witness for C8: with both attempts raising, `safe_to_device` returns the
composite error embedding the first message after exactly two attempts. -/
theorem c8_safe_to_device_witness :
    safe_to_device devOOM =
      ⟨.error ("Failed to move tensor to device even after memory cleanup: " ++
        "CUDA out of memory"), 2, true⟩ :=
  (c8_safe_to_device Nat devOOM).2.2.2 "CUDA out of memory" "CUDA error" rfl rfl

/-- Counterexample to Claim C3: it is NOT true that `extract` still reports
success when every entry was extracted successfully but the subsequent
archive deletion (`remove_archive=True`) fails.  In `envUnlinkFail` the
single entry extracts fine and `archive_path.unlink()` raises, yet
`extract` reports failure. -/
theorem c3_counterexample : ¬ (∀ (env : Env) (archive_path : String) (sz : Nat)
      (destPre : Bool) (l : List ZipEntry) (e : String),
      env.zipOpen = ZipOpen.entries l → (∀ i, env.entryRaise i = none) →
      env.unlinkArchive = some e → is_compressed_file (env.guess archive_path) = true →
      l ≠ [] →
      (extractRun env archive_path (some sz) destPre true).success = true) := by
  intro h
  have hc := h envUnlinkFail "a.zip" 5 false [⟨3⟩] "Permission denied"
    rfl (fun _ => rfl) rfl rfl (by decide)
  have hval : (extractRun envUnlinkFail "a.zip" (some 5) false true).success = false := rfl
  rw [hval] at hc
  simp at hc

/-- Claim C3, amended: a failure of the archive deletion after a fully
successful entry loop is caught by `extract`'s generic handler and turned
into the structured failure `"Extraction failed: ..."` (the extracted files
remain and the archive survives), rather than `extract` reporting success;
and `cleanup_cache` never raises (its whole body is inside `try/except`). -/
theorem c3_amended :
    (∀ (env : Env) (archive_path : String) (sz : Nat) (destPre : Bool)
        (l : List ZipEntry) (e : String),
      env.zipOpen = ZipOpen.entries l → (∀ i, env.entryRaise i = none) →
      env.unlinkArchive = some e → is_compressed_file (env.guess archive_path) = true →
      l ≠ [] →
      extractRun env archive_path (some sz) destPre true =
        ⟨false, "Extraction failed: " ++ e, some sz, true⟩) ∧
    (∀ (env : CleanEnv) (max_age_days : Int) (files : List CacheFile),
      (cleanup_cache env max_age_days files).isOk = true) := by
  refine ⟨?_, fun _ _ _ => rfl⟩
  intro env archive_path sz destPre l e hz hr hu hm hl
  have hloop : extractLoop env.entryRaise l 0 = .ok (0 + l.length) := extractLoop_none _ hr l 0
  have hn : (l.length != 0) = true := by
    cases l with
    | nil => exact absurd rfl hl
    | cons z l' => simp [List.length_cons]
  simp [extractRun, extractBody, hm, hz, hloop, hn, hu, hl]

/-- Witness for the amended C3 at a concrete environment. -/
theorem c3_amended_witness :
    extractRun envUnlinkFail "a.zip" (some 5) false true =
      ⟨false, "Extraction failed: " ++ "Permission denied", some 5, true⟩ :=
  c3_amended.1 envUnlinkFail "a.zip" 5 false [⟨3⟩] "Permission denied"
    rfl (fun _ => rfl) rfl rfl (by decide)

/-- The sweep loop deletes exactly the matching old files when no unlink
raises: the survivors are the files whose name has no dot (never enumerated
by `glob("*.*")`) or whose age does not strictly exceed the threshold. -/
lemma cleanupLoop_ok (env : CleanEnv) (max_age_days : Int) :
    ∀ (files : List CacheFile), (∀ f ∈ files, env.unlinkFail f.name = none) →
    cleanupLoop env max_age_days files =
      .ok (files.filter (fun f =>
        !(f.name.data.contains '.' && decide (max_age_days * 86400 < env.now - f.mtime)))) := by
  intro files
  induction files with
  | nil => intro _; simp [cleanupLoop]
  | cons f fs ih =>
    intro h
    have hf : env.unlinkFail f.name = none := h f (List.mem_cons_self f fs)
    have hfs := ih (fun g hg => h g (List.mem_cons_of_mem f hg))
    by_cases hc : (f.name.data.contains '.' && decide (max_age_days * 86400 < env.now - f.mtime)) = true
    · simp only [cleanupLoop, hc, hf, hfs, List.filter_cons, Bool.not_true,
        eq_self_iff_true, Bool.false_eq_true, if_true, if_false, ite_true, ite_false]
    · have hc' : (f.name.data.contains '.' && decide (max_age_days * 86400 < env.now - f.mtime)) = false := by
        revert hc; cases (f.name.data.contains '.' && decide (max_age_days * 86400 < env.now - f.mtime)) <;> simp
      simp only [cleanupLoop, hc', hf, hfs, List.filter_cons, Bool.not_false,
        eq_self_iff_true, Bool.false_eq_true, if_true, if_false, ite_true, ite_false]

/-- Counterexample to Claim C4: `cleanup_cache(0)` does NOT delete every file
in the cache root regardless of age.  A file named "data" (no dot in the
name) is never enumerated by `glob("*.*")` and survives a sweep with
`max_age_days = 0` even though its mtime is arbitrarily old. -/
theorem c4_counterexample : ¬ (∀ (env : CleanEnv) (files : List CacheFile),
      (∀ f ∈ files, env.unlinkFail f.name = none) →
      cleanup_cache env 0 files = .ok []) := by
  intro h
  have hc := h ⟨1000000, fun _ => none⟩ [⟨"data", 0⟩] (fun f _ => rfl)
  have hval : cleanup_cache (⟨1000000, fun _ => none⟩ : CleanEnv) 0 [⟨"data", 0⟩] =
      .ok [(⟨"data", 0⟩ : CacheFile)] := rfl
  rw [hval] at hc
  simp at hc

/-- Claim C4, amended: when every unlink succeeds, `cleanup_cache` deletes
exactly the files directly under the cache root whose NAME CONTAINS A DOT
(the `glob("*.*")` pattern) and whose last-modified time is STRICTLY older
than `max_age_days * 86400` seconds before the current time; in particular
with `max_age_days = 0` it deletes exactly the dot-named files whose mtime
is strictly in the past, not every file. -/
theorem c4_sweep_filter (env : CleanEnv) (max_age_days : Int) (files : List CacheFile)
    (h : ∀ f ∈ files, env.unlinkFail f.name = none) :
    cleanup_cache env max_age_days files =
      .ok (files.filter (fun f =>
        !(f.name.data.contains '.' && decide (max_age_days * 86400 < env.now - f.mtime)))) := by
  have hloop := cleanupLoop_ok env max_age_days files h
  simp [cleanup_cache, cleanupRun, hloop]

/-- Witness for the amended C4: with the clock at 1000, a sweep with
`max_age_days = 0` keeps "b" (no dot) and "new.zip" (mtime not in the past)
and deletes "old.zip". -/
theorem c4_sweep_filter_witness :
    (∀ f ∈ ([⟨"old.zip", 10⟩, ⟨"b", 0⟩, ⟨"new.zip", 1000⟩] : List CacheFile),
      sweepEnv.unlinkFail f.name = none) ∧
    cleanup_cache sweepEnv 0 [⟨"old.zip", 10⟩, ⟨"b", 0⟩, ⟨"new.zip", 1000⟩] =
      .ok (([⟨"old.zip", 10⟩, ⟨"b", 0⟩, ⟨"new.zip", 1000⟩] : List CacheFile).filter (fun f =>
        !(f.name.data.contains '.' && decide ((0 : Int) * 86400 < sweepEnv.now - f.mtime)))) :=
  ⟨fun _ _ => rfl, c4_sweep_filter sweepEnv 0 _ (fun _ _ => rfl)⟩

/-- Claim C10: `extract` returns the empty-extraction failure
`"No files found after extraction"` exactly when the run reaches the check
with an empty destination: the archive existed, its name classified as a
recognized archive, the zip opened with an empty entry list (a non-empty
list that survives the loop always populates the destination), and the
destination directory was empty beforehand.  Consequently, a destination
that already contained an entry makes the check pass, and `extract` reports
success even for an archive contributing zero entries (provided its own
post-steps do not raise). -/
theorem c10_empty_extraction_iff :
    (∀ (env : Env) (archive_path : String) (archivePre : Option Nat)
        (destPre remove_archive : Bool),
      ((extractRun env archive_path archivePre destPre remove_archive).message =
          "No files found after extraction" ↔
        (archivePre.isSome = true ∧ is_compressed_file (env.guess archive_path) = true ∧
         env.zipOpen = ZipOpen.entries [] ∧ destPre = false))) ∧
    (∀ (env : Env) (archive_path : String) (sz : Nat) (remove_archive : Bool),
      is_compressed_file (env.guess archive_path) = true →
      env.zipOpen = ZipOpen.entries [] →
      (remove_archive = true → env.unlinkArchive = none) →
      (extractRun env archive_path (some sz) true remove_archive).success = true) := by
  constructor
  · intro env path pre destPre rm
    cases pre with
    | none =>
      have hval : extractRun env path none destPre rm =
          ⟨false, "Archive file not found", none, destPre⟩ := rfl
      rw [hval]
      constructor
      · intro hmsg; simp at hmsg
      · rintro ⟨h1, -, -, -⟩; simp at h1
    | some sz =>
      cases hm : is_compressed_file (env.guess path) with
      | false =>
        have hval : extractRun env path (some sz) destPre rm =
            ⟨false, "File is not a compressed archive", some sz, destPre⟩ := by
          simp [extractRun, extractBody, hm]
        rw [hval]
        constructor
        · intro hmsg; simp at hmsg
        · rintro ⟨-, h2, -, -⟩; simp at h2
      | true =>
        cases hz : env.zipOpen with
        | badZip =>
          have hval : extractRun env path (some sz) destPre rm =
              ⟨false, "Invalid or corrupted zip file", some sz, destPre⟩ := by
            simp [extractRun, extractBody, hm, hz]
          rw [hval]
          constructor
          · intro hmsg; simp at hmsg
          · rintro ⟨-, -, h3, -⟩; simp at h3
        | openErr e =>
          have hval : extractRun env path (some sz) destPre rm =
              ⟨false, "Extraction failed: " ++ e, some sz, destPre⟩ := by
            simp [extractRun, extractBody, hm, hz]
          rw [hval]
          constructor
          · intro hmsg; exact absurd hmsg (extraction_failed_ne e)
          · rintro ⟨-, -, h3, -⟩; simp at h3
        | entries filelist =>
          cases filelist with
          | nil =>
            cases destPre with
            | false =>
              have hval : extractRun env path (some sz) false rm =
                  ⟨false, "No files found after extraction", some sz, false⟩ := by
                simp [extractRun, extractBody, hm, hz, extractLoop]
              rw [hval]
              simp [hm, hz]
            | true =>
              cases rm with
              | false =>
                have hval : extractRun env path (some sz) true false =
                    ⟨true, "Extraction successful", some sz, true⟩ := by
                  simp [extractRun, extractBody, hm, hz, extractLoop]
                rw [hval]
                constructor
                · intro hmsg; simp at hmsg
                · rintro ⟨-, -, -, h4⟩; simp at h4
              | true =>
                cases hu : env.unlinkArchive with
                | some e =>
                  have hval : extractRun env path (some sz) true true =
                      ⟨false, "Extraction failed: " ++ e, some sz, true⟩ := by
                    simp [extractRun, extractBody, hm, hz, hu, extractLoop]
                  rw [hval]
                  constructor
                  · intro hmsg; exact absurd hmsg (extraction_failed_ne e)
                  · rintro ⟨-, -, -, h4⟩; simp at h4
                | none =>
                  have hval : extractRun env path (some sz) true true =
                      ⟨true, "Extraction successful", none, true⟩ := by
                    simp [extractRun, extractBody, hm, hz, hu, extractLoop]
                  rw [hval]
                  constructor
                  · intro hmsg; simp at hmsg
                  · rintro ⟨-, -, -, h4⟩; simp at h4
          | cons z l' =>
            cases hloop : extractLoop env.entryRaise (z :: l') 0 with
            | error pr =>
              obtain ⟨e, k⟩ := pr
              have hval : extractRun env path (some sz) destPre rm =
                  ⟨false, "Extraction failed: " ++ e, some sz, destPre || (k != 0)⟩ := by
                simp [extractRun, extractBody, hm, hz, hloop]
              rw [hval]
              constructor
              · intro hmsg; exact absurd hmsg (extraction_failed_ne e)
              · rintro ⟨-, -, h3, -⟩; simp at h3
            | ok n =>
              have hn := extractLoop_ok env.entryRaise (z :: l') 0 n hloop
              have hne : (n != 0) = true := by simp [hn, List.length_cons]
              cases rm with
              | false =>
                have hval : extractRun env path (some sz) destPre false =
                    ⟨true, "Extraction successful", some sz, true⟩ := by
                  simp [extractRun, extractBody, hm, hz, hloop, hne]
                rw [hval]
                constructor
                · intro hmsg; simp at hmsg
                · rintro ⟨-, -, h3, -⟩; simp at h3
              | true =>
                cases hu : env.unlinkArchive with
                | some e =>
                  have hval : extractRun env path (some sz) destPre true =
                      ⟨false, "Extraction failed: " ++ e, some sz, true⟩ := by
                    simp [extractRun, extractBody, hm, hz, hloop, hne, hu]
                  rw [hval]
                  constructor
                  · intro hmsg; exact absurd hmsg (extraction_failed_ne e)
                  · rintro ⟨-, -, h3, -⟩; simp at h3
                | none =>
                  have hval : extractRun env path (some sz) destPre true =
                      ⟨true, "Extraction successful", none, true⟩ := by
                    simp [extractRun, extractBody, hm, hz, hloop, hne, hu]
                  rw [hval]
                  constructor
                  · intro hmsg; simp at hmsg
                  · rintro ⟨-, -, h3, -⟩; simp at h3
  · intro env path sz remove_archive hm hz hru
    cases remove_archive with
    | false => simp [extractRun, extractBody, hm, hz, extractLoop]
    | true =>
      have hu := hru rfl
      simp [extractRun, extractBody, hm, hz, hu, extractLoop]

/-- Witness for C10: with a pre-populated destination, a zero-entry archive
still extracts "successfully" (and its archive file is deleted). -/
theorem c10_empty_extraction_witness :
    (extractRun envZeroEntries "a.zip" (some 4) true true).success = true :=
  c10_empty_extraction_iff.2 envZeroEntries "a.zip" 4 true rfl rfl (fun _ => rfl)

/-- Counterexample to Claim C1: the temporary archive CAN remain on disk
after a failure of the download phase.  In `envEmptyFile` the transfer
reports success but writes a zero-byte file; `download` returns the
"Downloaded file is empty or missing" failure WITHOUT deleting the file,
and `download_and_extract` returns the download-phase failure with no
cleanup (lines 250-251), so the zero-byte temp archive survives although
`keep_zip = false` and the call failed. -/
theorem c1_counterexample : ¬ (∀ (env : Env) (cache_dir gdrive_url : String)
      (keep_zip force_download : Bool) (tempPre : Option Nat) (destPre : Bool) (o : DAEOut),
      download_and_extract env cache_dir gdrive_url keep_zip force_download tempPre destPre =
        .ok o →
      o.success = false → o.tempAfter = none) := by
  intro h
  have hc := h envEmptyFile "cache" "http://x/y.zip" false false none false
    ⟨false, "Download phase failed: " ++ "Downloaded file is empty or missing", some 0, false⟩
    rfl rfl
  simp at hc

/-- Claim C1, amended: the stated invariant holds for the extraction phase
but not for the download phase.  Whenever the download phase succeeded and
the call returned without an exception, the temp archive exists afterwards
iff `keep_zip` was set and the run succeeded (extraction succeeded); in
particular it never survives an extraction-phase failure that returns
normally.  After a download-phase failure, however, the temp archive may
remain on disk (see the counterexample). -/
theorem c1_amended (env : Env) (cache_dir gdrive_url : String)
    (keep_zip force_download : Bool) (tempPre : Option Nat) (destPre : Bool) (o : DAEOut)
    (hdl : (downloadRun env gdrive_url
        (cache_dir ++ "/temp_" ++ toString env.time ++ ".zip")
        force_download true tempPre).result.success = true)
    (ho : download_and_extract env cache_dir gdrive_url keep_zip force_download tempPre destPre =
      .ok o) :
    o.tempAfter.isSome = (keep_zip && o.success) := by
  cases hex : (extractRun env (cache_dir ++ "/temp_" ++ toString env.time ++ ".zip")
      (downloadRun env gdrive_url (cache_dir ++ "/temp_" ++ toString env.time ++ ".zip")
        force_download true tempPre).fileAfter destPre (!keep_zip)).success with
  | true =>
    have harch := extractRun_success_archive env
      (cache_dir ++ "/temp_" ++ toString env.time ++ ".zip")
      (downloadRun env gdrive_url (cache_dir ++ "/temp_" ++ toString env.time ++ ".zip")
        force_download true tempPre).fileAfter destPre (!keep_zip) hex
    simp only [download_and_extract, download, extract] at ho
    rw [hdl] at ho
    simp [hex] at ho
    subst ho
    simp [harch, Bool.not_not]
  | false =>
    simp only [download_and_extract, download, extract] at ho
    rw [hdl] at ho
    simp [hex] at ho
    cases his : (extractRun env (cache_dir ++ "/temp_" ++ toString env.time ++ ".zip")
        (downloadRun env gdrive_url (cache_dir ++ "/temp_" ++ toString env.time ++ ".zip")
          force_download true tempPre).fileAfter destPre (!keep_zip)).archiveAfter.isSome with
    | true =>
      rw [his] at ho
      cases hcu : env.cleanupUnlink with
      | some e => rw [hcu] at ho; simp at ho
      | none =>
        rw [hcu] at ho
        simp at ho
        subst ho
        simp
    | false =>
      rw [his] at ho
      simp at ho
      subst ho
      simp

/-- Witness for the amended C1: a fully successful run with
`keep_zip = false` ends with no temp archive on disk. -/
theorem c1_amended_witness :
    ((⟨true, "Download and extraction completed successfully", none, true⟩ : DAEOut).tempAfter.isSome =
      (false && (⟨true, "Download and extraction completed successfully", none, true⟩ : DAEOut).success)) :=
  c1_amended envHappy "cache" "http://x/y.zip" false false none false
    ⟨true, "Download and extraction completed successfully", none, true⟩ rfl rfl

/-- Counterexample to Claim C2: `download_and_extract` has no `try/except`
of its own, so an exception raised by its failure-path `temp_zip.unlink()`
(line 264) escapes the public operation boundary instead of being converted
into a structured result.  In `envBadZip` the downloaded file is a corrupt
zip, extraction fails, the temp file exists, and its unlink raises. -/
theorem c2_counterexample :
    download_and_extract envBadZip "cache" "http://x/y.zip" false false none false =
      .error "Permission denied" := rfl

/-- Claim C2, amended: `download`, `extract` and `cleanup_cache` have their
entire bodies wrapped in `try/except` and never propagate an exception
(always a structured `.ok` result); `download_and_extract` propagates no
exception from its two phases either, but CAN propagate one raised by its
own extraction-failure cleanup unlink, and that is its only escape route:
whenever it returns `.error e`, that `e` is the exception of the cleanup
unlink. -/
theorem c2_amended :
    (∀ (env : Env) (gdrive_url output_path : String)
        (force_download validate_compression : Bool) (pre : Option Nat),
      (download env gdrive_url output_path force_download validate_compression pre).isOk = true) ∧
    (∀ (env : Env) (archive_path : String) (archivePre : Option Nat)
        (destPre remove_archive : Bool),
      (extract env archive_path archivePre destPre remove_archive).isOk = true) ∧
    (∀ (env : CleanEnv) (max_age_days : Int) (files : List CacheFile),
      (cleanup_cache env max_age_days files).isOk = true) ∧
    (∀ (env : Env) (cache_dir gdrive_url : String) (keep_zip force_download : Bool)
        (tempPre : Option Nat) (destPre : Bool) (e : String),
      download_and_extract env cache_dir gdrive_url keep_zip force_download tempPre destPre =
        .error e →
      env.cleanupUnlink = some e) := by
  refine ⟨fun _ _ _ _ _ _ => rfl, fun _ _ _ _ _ => rfl, fun _ _ _ => rfl, ?_⟩
  intro env cache_dir gdrive_url keep_zip force_download tempPre destPre e h
  simp only [download_and_extract, download, extract] at h
  by_cases hdl : (downloadRun env gdrive_url
      (cache_dir ++ "/temp_" ++ toString env.time ++ ".zip")
      force_download true tempPre).result.success = true
  · rw [hdl] at h
    cases hex : (extractRun env (cache_dir ++ "/temp_" ++ toString env.time ++ ".zip")
        (downloadRun env gdrive_url (cache_dir ++ "/temp_" ++ toString env.time ++ ".zip")
          force_download true tempPre).fileAfter destPre (!keep_zip)).success with
    | true => simp [hex] at h
    | false =>
      simp [hex] at h
      cases his : (extractRun env (cache_dir ++ "/temp_" ++ toString env.time ++ ".zip")
          (downloadRun env gdrive_url (cache_dir ++ "/temp_" ++ toString env.time ++ ".zip")
            force_download true tempPre).fileAfter destPre (!keep_zip)).archiveAfter.isSome with
      | true =>
        rw [his] at h
        cases hcu : env.cleanupUnlink with
        | some e2 => rw [hcu] at h; simp at h; rw [h]
        | none => rw [hcu] at h; simp at h
      | false => rw [his] at h; simp at h
  · have hdl' : (downloadRun env gdrive_url
        (cache_dir ++ "/temp_" ++ toString env.time ++ ".zip")
        force_download true tempPre).result.success = false := by
      revert hdl
      cases (downloadRun env gdrive_url
        (cache_dir ++ "/temp_" ++ toString env.time ++ ".zip")
        force_download true tempPre).result.success <;> simp
    rw [hdl'] at h
    simp at h

/-- Witness for the amended C2: the concrete escaping exception is exactly
the cleanup unlink error of the environment. -/
theorem c2_amended_witness : envBadZip.cleanupUnlink = some "Permission denied" :=
  c2_amended.2.2.2 envBadZip "cache" "http://x/y.zip" false false none false
    "Permission denied" rfl

/-- Counterexample to Claim C5: a URL containing `file/d/<id>/` that does
NOT contain `drive.google.com` is passed through unchanged by the
resolution logic (line 124's host check comes first), so it is not
rewritten to the direct-fetch `uc?id=` form the claim requires. -/
theorem c5_counterexample :
    resolveDownloadUrl "https://example.com/file/d/ABC/view" =
      some "https://example.com/file/d/ABC/view" ∧
    ("https://example.com/file/d/ABC/view" : String) ≠
      "https://drive.google.com/uc?id=" ++ "ABC" := ⟨rfl, by decide⟩

/-- Claim C5, amended: the extraction-and-rewrite behaviour holds for URLs
that also contain `drive.google.com` (the code checks the host substring
first).  For a URL of the form `pre ++ "file/d/" ++ id ++ "/" ++ rest`
where the displayed `file/d/` is its first occurrence (none starts inside
`pre`), no further `file/d/` occurs afterwards, and `id` contains no slash,
resolution extracts exactly `id` — the text between `file/d/` and the next
slash, ignoring all trailing path segments and query parameters — and
rewrites the URL to `https://drive.google.com/uc?id=<id>`. -/
theorem c5_amended (pre fid rest : String)
    (hdrive : pyIn "drive.google.com" (pre ++ "file/d/" ++ fid ++ "/" ++ rest) = true)
    (hfirst : ∀ i, i < pre.data.length →
      ("file/d/" : String).data.isPrefixOf
        ((pre ++ "file/d/" ++ fid ++ "/" ++ rest).data.drop i) = false)
    (htail : pyIn "file/d/" (fid ++ "/" ++ rest) = false)
    (hfid : fid.data.contains '/' = false) :
    resolveDownloadUrl (pre ++ "file/d/" ++ fid ++ "/" ++ rest) =
      some ("https://drive.google.com/uc?id=" ++ fid) := by
  have hdata : (pre ++ "file/d/" ++ fid ++ "/" ++ rest).data =
      pre.data ++ (("file/d/" : String).data ++ (fid ++ "/" ++ rest).data) := by
    simp [String.data_append, List.append_assoc]
  have hcontains : pyIn "file/d/" (pre ++ "file/d/" ++ fid ++ "/" ++ rest) = true := by
    unfold pyIn
    rw [hdata]
    exact listContainsSub_append _ _ _
  have hfirst2 : ∀ i, i < pre.data.length →
      ("file/d/" : String).data.isPrefixOf
        ((pre.data ++ (("file/d/" : String).data ++ (fid ++ "/" ++ rest).data)).drop i) = false := by
    intro i hi
    have hh := hfirst i hi
    rwa [hdata] at hh
  have hsplit1core : pySplitCore ("file/d/" : String).data
      (pre.data ++ (("file/d/" : String).data ++ (fid ++ "/" ++ rest).data)) =
      pre.data :: pySplitCore ("file/d/" : String).data (fid ++ "/" ++ rest).data :=
    pySplitCore_first _ _ _ (by decide) hfirst2
  have htailcore : pySplitCore ("file/d/" : String).data (fid ++ "/" ++ rest).data =
      [(fid ++ "/" ++ rest).data] :=
    pySplitCore_no_occ _ _ htail
  have hsplit1 : pySplit (pre ++ "file/d/" ++ fid ++ "/" ++ rest) "file/d/" =
      [pre, fid ++ "/" ++ rest] := by
    unfold pySplit
    rw [hdata, hsplit1core, htailcore]
    simp only [List.map_cons, List.map_nil, asString_data]
  have hslash : ("/" : String).data = ['/'] := rfl
  have hdata2 : (fid ++ "/" ++ rest).data = fid.data ++ '/' :: rest.data := by
    simp [String.data_append, hslash]
  have hsplit2 : pySplit (fid ++ "/" ++ rest) "/" =
      fid :: (pySplitCore ['/'] rest.data).map List.asString := by
    unfold pySplit
    rw [hslash, hdata2, pySplitCore_single '/' fid.data rest.data hfid]
    simp only [List.map_cons, asString_data]
  unfold resolveDownloadUrl
  rw [if_pos hdrive, if_pos hcontains, hsplit1]
  simp only [List.getD_cons_succ, List.getD_cons_zero]
  rw [hsplit2]
  simp only [List.getD_cons_zero]

/-- Witness for the amended C5: the scenario URL of the specification. -/
theorem c5_amended_witness :
    resolveDownloadUrl ("https://drive.google.com/" ++ "file/d/" ++ "ABC123" ++ "/" ++
        "view?usp=sharing") =
      some ("https://drive.google.com/uc?id=" ++ "ABC123") :=
  c5_amended "https://drive.google.com/" "ABC123" "view?usp=sharing"
    (by decide) (by decide) (by decide) (by decide)

end GDD
